import Mathlib

/-!
Verification of the MyWebServer HTTP server: a shallow embedding of the parts
of the code relevant to the specified properties, followed by theorems that
settle each property.  Machine integers are modelled as `Nat`/`Int` with
explicit wraparound where the C++ types make overflow observable.
-/

/-- Number of values of the 64-bit `size_t` used on the target (x86-64 Linux). -/
def sizeTMod : Nat := 2 ^ 64

/-- Unsigned `size_t` subtraction `a - b`, wrapping modulo `2^64`. -/
def sizeTSub (a b : Nat) : Nat := (a + sizeTMod - b % sizeTMod) % sizeTMod

/-- Storing a signed 64-bit value into a `size_t`: two-complement wraparound. -/
def toSizeT (v : Int) : Nat := (v % ((2 : Int) ^ 64)).toNat

/-- Narrowing a `size_t` to the 32-bit `int` return type, as the implementation
defines it on the target: reduce modulo `2^32` and reinterpret in two-complement. -/
def sizeTToInt (n : Nat) : Int :=
  let m : Nat := n % 2 ^ 32
  if m < 2 ^ 31 then (m : Int) else (m : Int) - 2 ^ 32

/-- The value of `std::chrono::duration_cast<MS>(d).count()` for a duration of
`d` nanoseconds: integer division by `10^6` truncating toward zero. -/
def cppDivMs (d : Int) : Int :=
  if d ≥ 0 then (d.toNat / 1000000 : Nat) else -(((-d).toNat / 1000000 : Nat) : Int)

namespace BlockQueue

/-- Observable state of `BlockQueue<T>` (blockqueue.h): the deque contents,
the close flag and the capacity. -/
structure State (T : Type) where
  deq : List T
  isClose : Bool
  capacity : Nat
  deriving DecidableEq

/-- Outcome of one `pop` call executed with no concurrent producer: either the
call returns, with the boolean result, the item assigned (if any) and the
post-state, or it is parked in `condConsumer_.wait` with nothing that will ever
let it return (`blocked`). -/
inductive PopOutcome (T : Type) where
  | ret (result : Bool) (item : Option T) (s : State T)
  | blocked
  deriving DecidableEq

/-- The method `BlockQueue::Close`: `clear()` empties the deque, the close flag is
set, and both condition variables are notified. -/
def Close {T : Type} (s : State T) : State T :=
  { s with deq := [], isClose := true }

/-- The untimed `BlockQueue::pop(T&)`.  Its loop is
`while(deq_.empty()) condConsumer_.wait(locker);` and it never consults
`isClose_`: with the deque empty and no producer, every wakeup (including the
`notify_all` issued by `Close`) re-enters `wait`, so the call never returns. -/
def pop {T : Type} (s : State T) : PopOutcome T :=
  match s.deq with
  | [] => PopOutcome.blocked
  | x :: rest => PopOutcome.ret true (some x) { s with deq := rest }

/-- The timed `BlockQueue::pop(T&, timeout)`.  On an empty deque with no
producer the `wait_for` either times out (`return false`) or is woken by
`Close`, after which the `isClose_` test makes it `return false`; on a
non-empty deque the front element is popped. -/
def popTimed {T : Type} (s : State T) (timeout : Int) : PopOutcome T :=
  match timeout, s.deq with
  | _, [] => PopOutcome.ret false none s
  | _, x :: rest => PopOutcome.ret true (some x) { s with deq := rest }

end BlockQueue

namespace HeapTimer

/-- The struct `TimerNode` of heaptimer.h: timer id and expiry instant (modelled
in nanoseconds of the high-resolution clock).  The stored callback is
represented by an opaque numeric token `cb`; the callbacks the server installs
(`WebServer::CloseConn_`) do not touch the timer, so running one leaves the
timer state unchanged. -/
structure TimerNode where
  id : Int
  expires : Int
  cb : Nat
  deriving DecidableEq

/-- The state of `HeapTimer`: the vector `heap_` and the id-to-index map `ref_`
(modelled as an association list holding exactly the entries of the map). -/
structure State where
  heap : List TimerNode
  ref : List (Int × Nat)
  deriving DecidableEq

/-- Lookup in `ref_` (`ref_.count(id)` / `ref_[id]` without insertion). -/
def refGet (r : List (Int × Nat)) (i : Int) : Option Nat :=
  match r with
  | [] => none
  | (k, v) :: rest => if k = i then some v else refGet rest i

/-- Assignment `ref_[id] = v`: update in place, or insert when absent. -/
def refSet (r : List (Int × Nat)) (i : Int) (v : Nat) : List (Int × Nat) :=
  match r with
  | [] => [(i, v)]
  | (k, w) :: rest => if k = i then (k, v) :: rest else (k, w) :: refSet rest i v

/-- The call `ref_.erase(id)`. -/
def refErase (r : List (Int × Nat)) (i : Int) : List (Int × Nat) :=
  match r with
  | [] => []
  | (k, w) :: rest => if k = i then rest else (k, w) :: refErase rest i

/-- The method `HeapTimer::SwapNode_(i, j)`: swap the two nodes and update their
positions in `ref_`.  Returns `none` when either index is not a valid position
of the heap vector (the asserts at its head fail). -/
def swapNode (s : State) (i j : Nat) : Option State :=
  match s.heap.get? i, s.heap.get? j with
  | some ni, some nj =>
    let heap1 := (s.heap.set i nj).set j ni
    some { heap := heap1, ref := refSet (refSet s.ref nj.id i) ni.id j }
  | _, _ => none

/-- The index `(i - 1) / 2` computed by `siftup_` in `size_t` arithmetic: for
`i = 0` the subtraction wraps and the result is `2^63 - 1`. -/
def parentIdx (i : Nat) : Nat := sizeTSub i 1 / 2

/-- The `while` loop of `HeapTimer::siftup_`.  The condition `parent >= 0` holds
for every `size_t`, so the loop is left only through `break`; before the break
test can run, `heap_[parent]` is read, and when `parent` is outside the vector
that read is out of bounds, modelled as `none`.  The fuel `i + 2` passed by
`siftup` covers every iteration the loop can make on a heap the process can
hold: the index strictly decreases while it stays in bounds, and at index `0`
the parent index `2^63 - 1` is outside every such heap. -/
def siftupLoop : Nat → State → Nat → Option State
  | 0, _, _ => none
  | fuel + 1, s, i =>
    let parent := parentIdx i
    match s.heap.get? parent, s.heap.get? i with
    | some hp, some hi =>
      if hp.expires > hi.expires then
        match swapNode s i parent with
        | some s1 => siftupLoop fuel s1 parent
        | none => none
      else
        some s
    | _, _ => none

/-- The method `HeapTimer::siftup_(i)`: assert `i < heap_.size()`, then run the
loop. -/
def siftup (s : State) (i : Nat) : Option State :=
  if i < s.heap.length then siftupLoop (i + 2) s i else none

/-- The `while (child < n)` loop of `HeapTimer::siftdown_`, returning the state
and the final index.  Fuel `n + 1` is ample: the index strictly increases on
every iteration. -/
def siftdownLoop : Nat → State → Nat → Nat → Option (State × Nat)
  | 0, _, _, _ => none
  | fuel + 1, s, index, n =>
    let child := 2 * index + 1
    if child < n then
      let pick : Option Nat :=
        if child + 1 < n then
          match s.heap.get? (child + 1), s.heap.get? child with
          | some r, some l => some (if r.expires < l.expires then child + 1 else child)
          | _, _ => none
        else some child
      match pick with
      | none => none
      | some child1 =>
        match s.heap.get? child1, s.heap.get? index with
        | some hc, some hi =>
          if hc.expires < hi.expires then
            match swapNode s index child1 with
            | some s1 => siftdownLoop fuel s1 child1 n
            | none => none
          else some (s, index)
        | _, _ => none
    else some (s, index)

/-- The method `HeapTimer::siftdown_(i, n)`: asserts on `i` and `n`, then the
loop; the C++ function returns `index > i`. -/
def siftdown (s : State) (i n : Nat) : Option (State × Bool) :=
  if i < s.heap.length ∧ n ≤ s.heap.length then
    (siftdownLoop (n + 1) s i n).map (fun p => (p.1, decide (p.2 > i)))
  else none

/-- The method `HeapTimer::del_(index)`: swap the doomed node to the back (unless
it already is the back), re-sift the swapped-in node, erase the back node from
`ref_` and pop it from the vector. -/
def del (s : State) (index : Nat) : Option State :=
  if index < s.heap.length then
    let step1 : Option State :=
      if index < s.heap.length - 1 then
        match swapNode s index (s.heap.length - 1) with
        | some s1 =>
          match siftdown s1 index (s.heap.length - 1) with
          | some (s2, moved) => if moved then some s2 else siftup s2 index
          | none => none
        | none => none
      else some s
    match step1 with
    | some s3 =>
      match s3.heap.getLast? with
      | some last => some { heap := s3.heap.dropLast, ref := refErase s3.ref last.id }
      | none => none
    | none => none
  else none

/-- The method `HeapTimer::add(id, timeOut, cb)` with the clock reading `now`
(nanoseconds); `MS(timeOut)` converts milliseconds to clock units. -/
def add (s : State) (nid : Int) (timeOut : Int) (cb : Nat) (now : Int) : Option State :=
  if nid ≥ 0 then
    match refGet s.ref nid with
    | some tmp =>
      match s.heap.get? tmp with
      | some node =>
        let s1 : State :=
          { s with heap := s.heap.set tmp { node with expires := now + timeOut * 1000000, cb := cb } }
        match siftdown s1 tmp s1.heap.length with
        | some (s2, moved) => if moved then some s2 else siftup s2 tmp
        | none => none
      | none => none
    | none =>
      let n := s.heap.length
      let s1 : State :=
        { heap := s.heap ++ [⟨nid, now + timeOut * 1000000, cb⟩], ref := refSet s.ref nid n }
      siftup s1 n
  else none

/-- The method `HeapTimer::adjust(id, newExpires)` at clock reading `now`:
asserts the heap is non-empty and the id is mapped, updates the expiry, and
sifts down. -/
def adjust (s : State) (nid : Int) (newExpires : Int) (now : Int) : Option State :=
  if s.heap ≠ [] then
    match refGet s.ref nid with
    | some idx =>
      match s.heap.get? idx with
      | some node =>
        let s1 : State :=
          { s with heap := s.heap.set idx { node with expires := now + newExpires * 1000000 } }
        (siftdown s1 idx s1.heap.length).map (fun p => p.1)
      | none => none
    | none => none
  else none

/-- The method `HeapTimer::doWork(id)`: no-op when the heap is empty or the id is
unmapped; otherwise run the callback (which leaves the timer unchanged) and
delete the node. -/
def doWork (s : State) (nid : Int) : Option State :=
  if s.heap = [] then some s
  else
    match refGet s.ref nid with
    | none => some s
    | some i => del s i

/-- The `while` loop of `HeapTimer::tick` with clock reading `now`: pop the root
while its remaining time in milliseconds is not positive.  Fuel
`heap.length + 1` covers all iterations, each `pop` removing one node. -/
def tickLoop : Nat → State → Int → Option State
  | 0, _, _ => none
  | fuel + 1, s, now =>
    match s.heap.head? with
    | none => some s
    | some node =>
      if cppDivMs (node.expires - now) > 0 then some s
      else
        match del s 0 with
        | some s1 => tickLoop fuel s1 now
        | none => none

/-- The method `HeapTimer::tick()` at clock reading `now` (each loop iteration of
the C++ reads the clock afresh; a single reading models a run during which the
clock value relevant to the executed comparisons is `now`). -/
def tick (s : State) (now : Int) : Option State :=
  if s.heap = [] then some s else tickLoop (s.heap.length + 1) s now

/-- The method `HeapTimer::GetNextTick`: run `tick()` (clock reading `nowTick`),
then compute the remaining time of the root (clock reading `nowRes`).  The
local `res` is a `size_t`: `res = -1` stores `2^64 - 1`, a negative
`duration_cast` count is stored with unsigned wraparound, the guard `res < 0`
compares a `size_t` and is therefore never true, and `return res` narrows the
`size_t` to the `int` return type. -/
def getNextTick (s : State) (nowTick nowRes : Int) : Option (State × Int) :=
  match tick s nowTick with
  | none => none
  | some s1 =>
    let res : Nat := toSizeT (-1)
    let res : Nat :=
      match s1.heap.head? with
      | none => res
      | some node =>
        let r := toSizeT (cppDivMs (node.expires - nowRes))
        if r < 0 then 0 else r
    some (s1, sizeTToInt res)

end HeapTimer

/-- The character list of a string literal (the embeddings work on byte/char
lists so that all operations reduce well). -/
def strL (s : String) : List Char := s.data

/-- Modelled from the spec: the byte buffer of buffer.h / buffer.cpp, which are
not under src/.  Per the specification the buffer is an octet sequence with
cursors `read ≤ write ≤ capacity`; the readable region is [read, write).
`data` holds the octets at positions [0, write) of the underlying storage and
`readPos` is the read cursor, so the address of the readable region (`Peek`)
is the offset `readPos` into the storage.  The growth policy
(compact-then-resize) moves data only when an append does not fit; no property
proved below appends after taking the `Peek` offset, so `Append` extends the
storage in place. -/
structure Buffer where
  data : List Char
  readPos : Nat
  deriving DecidableEq

namespace Buffer

/-- Modelled from the spec: readable count = `write - read`. -/
def ReadableBytes (b : Buffer) : Nat := b.data.length - b.readPos

/-- Modelled from the spec: the start of the readable region, as an offset into
the underlying storage. -/
def Peek (b : Buffer) : Nat := b.readPos

/-- Modelled from the spec: the contents of the readable region. -/
def readable (b : Buffer) : List Char := b.data.drop b.readPos

/-- Modelled from the spec: append bytes at the write cursor. -/
def Append (b : Buffer) (s : List Char) : Buffer := { b with data := b.data ++ s }

/-- Modelled from the spec: consume `n` bytes by advancing the read cursor. -/
def Retrieve (b : Buffer) (n : Nat) : Buffer := { b with readPos := b.readPos + n }

/-- Modelled from the spec: consume-all; the readable region becomes empty and
both cursors return to the start of the storage. -/
def RetrieveAll (_b : Buffer) : Buffer := { data := [], readPos := 0 }

end Buffer

namespace HttpRequest

/-- The enum `HttpRequest::PARSE_STATE`. -/
inductive PARSE_STATE where
  | REQUEST_LINE
  | HEADERS
  | BODY
  | FINISH
  deriving DecidableEq

/-- The parser fields of `HttpRequest` (httprequest.h): state, request-line
fields, header map, body and form map. -/
structure Req where
  state : PARSE_STATE
  method : List Char
  path : List Char
  version : List Char
  header : List (List Char × List Char)
  body : List Char
  post : List (List Char × List Char)
  deriving DecidableEq

/-- Modelled from the spec: `HttpRequest::Init` (httprequest.cpp is not under
src/) resets the parser to the initial `REQUEST_LINE` state with every
accumulated field cleared. -/
def Init : Req := ⟨PARSE_STATE.REQUEST_LINE, [], [], [], [], [], []⟩

/-- Split a character sequence at the first CRLF: the part before it and the
part after it, or `none` when no CRLF is present (a partial line). -/
def splitCRLF : List Char → Option (List Char × List Char)
  | [] => none
  | '\r' :: '\n' :: rest => some ([], rest)
  | c :: rest =>
    match splitCRLF rest with
    | some (l, r) => some (c :: l, r)
    | none => none

/-- Consume one CRLF-terminated line from the buffer; `none` when the readable
region holds no complete line (partial lines are never consumed). -/
def getLine (b : Buffer) : Option (List Char × Buffer) :=
  match splitCRLF b.readable with
  | some (l, _) => some (l, b.Retrieve (l.length + 2))
  | none => none

/-- Split a character sequence on spaces. -/
def splitSp : List Char → List (List Char)
  | [] => [[]]
  | c :: rest =>
    let r := splitSp rest
    if c = ' ' then [] :: r
    else
      match r with
      | cur :: tail => (c :: cur) :: tail
      | [] => [[c]]

/-- Modelled from the spec: the request line must match `METHOD SP PATH SP
HTTP/VER`; on a match the three fields are produced. -/
def parseRequestLine (line : List Char) : Option (List Char × List Char × List Char) :=
  match splitSp line with
  | [m, p, v] => if v.take 5 = strL "HTTP/" then some (m, p, v.drop 5) else none
  | _ => none

/-- Modelled from the spec: the default HTML set, the recognized page tags of the
served resource tree. -/
def DEFAULT_HTML : List (List Char) :=
  [strL "/index", strL "/register", strL "/login",
   strL "/welcome", strL "/video", strL "/picture"]

/-- Modelled from the spec: path rewriting after the request line; `/` becomes
`/index.html`, a recognized tag gets `.html` appended. -/
def ParsePath_ (p : List Char) : List Char :=
  if p = strL "/" then strL "/index.html"
  else if p ∈ DEFAULT_HTML then p ++ strL ".html"
  else p

/-- Split a header line at the first colon (tolerating one space after it),
giving `KEY: VALUE`; `none` when the line holds no colon. -/
def splitColon : List Char → Option (List Char × List Char)
  | [] => none
  | ':' :: rest => some ([], if rest.head? = some ' ' then rest.drop 1 else rest)
  | c :: rest =>
    match splitColon rest with
    | some (k, v) => some (c :: k, v)
    | none => none

/-- Header lookup by key. -/
def getHeader (r : Req) (k : List Char) : Option (List Char) :=
  (r.header.find? (fun p => p.1 = k)).map (fun p => p.2)

/-- Numeric value of the Content-Length header (0 when absent). -/
def contentLength (r : Req) : Nat :=
  match getHeader r (strL "Content-Length") with
  | none => 0
  | some v => v.foldl (fun a c => if c.isDigit then a * 10 + (c.toNat - 48) else a) 0

/-- The method `HttpRequest::IsKeepAlive`: the Connection header equals
`keep-alive` and the version is 1.1. -/
def IsKeepAlive (r : Req) : Bool :=
  getHeader r (strL "Connection") = some (strL "keep-alive") ∧ r.version = strL "1.1"

/-- Value of one hexadecimal digit (`HttpRequest::ConverHex`). -/
def ConverHex (c : Char) : Nat :=
  if c.isDigit then c.toNat - 48
  else if 'A' ≤ c ∧ c ≤ 'F' then c.toNat - 55
  else if 'a' ≤ c ∧ c ≤ 'f' then c.toNat - 87
  else 0

/-- Modelled from the spec: percent-decoding of a form-urlencoded token, with
`+` decoded to a space. -/
def urldecode : List Char → List Char
  | [] => []
  | '+' :: rest => ' ' :: urldecode rest
  | '%' :: a :: b :: rest => Char.ofNat (16 * ConverHex a + ConverHex b) :: urldecode rest
  | c :: rest => c :: urldecode rest

/-- Split a character sequence on ampersands. -/
def splitAmp : List Char → List (List Char)
  | [] => [[]]
  | c :: rest =>
    let r := splitAmp rest
    if c = '&' then [] :: r
    else
      match r with
      | cur :: tail => (c :: cur) :: tail
      | [] => [[c]]

/-- Split a token at the first equals sign. -/
def splitEq : List Char → List Char × List Char
  | [] => ([], [])
  | '=' :: rest => ([], rest)
  | c :: rest =>
    let p := splitEq rest
    (c :: p.1, p.2)

/-- Modelled from the spec: decode an `application/x-www-form-urlencoded` body
into the form map. -/
def parseForm (body : List Char) : List (List Char × List Char) :=
  (splitAmp body).map (fun tok =>
    let p := splitEq tok
    (urldecode p.1, urldecode p.2))

/-- Form-map lookup. -/
def formGet (form : List (List Char × List Char)) (k : List Char) : List Char :=
  match form.find? (fun p => p.1 = k) with
  | some p => p.2
  | none => []

/-- Modelled from the spec: the POST handling at the end of the body stage.  For
a form-urlencoded POST the body is decoded into the form map; for the login or
register page (the tag paths already carry the `.html` suffix appended by the
path rewrite), `UserVerify(username, password, isLogin)` decides whether the
path is rewritten to the welcome or the error page.  The database-backed
`UserVerify` is passed in as the function `verify`. -/
def ParsePost_ (verify : List Char → List Char → Bool → Bool) (r : Req) : Req :=
  if r.method = strL "POST" ∧
      getHeader r (strL "Content-Type") = some (strL "application/x-www-form-urlencoded") then
    let form := parseForm r.body
    let r1 := { r with post := form }
    if r1.path = strL "/login.html" ∨ r1.path = strL "/register.html" then
      let isLogin := r1.path = strL "/login.html"
      if verify (formGet form (strL "username")) (formGet form (strL "password")) isLogin then
        { r1 with path := strL "/welcome.html" }
      else
        { r1 with path := strL "/error.html" }
    else r1
  else r

/-- Modelled from the spec: the state-machine loop of `HttpRequest::parse`
(httprequest.cpp is not under src/).  Each pass consumes one complete line (or
the body once enough bytes are present) and never consumes a partial line.
Fuel: every recursive call consumes at least two readable bytes, so the
`ReadableBytes + 2` supplied by `parse` covers every iteration. -/
def parseLoop (verify : List Char → List Char → Bool → Bool) :
    Nat → Req → Buffer → Req × Buffer × Bool
  | 0, r, b => (r, b, false)
  | fuel + 1, r, b =>
    match r.state with
    | PARSE_STATE.FINISH => (r, b, true)
    | PARSE_STATE.REQUEST_LINE =>
      match getLine b with
      | none => (r, b, false)
      | some (line, b1) =>
        match parseRequestLine line with
        | none => (r, b1, false)
        | some (m, p, v) =>
          parseLoop verify fuel
            { r with state := PARSE_STATE.HEADERS, method := m, path := ParsePath_ p, version := v }
            b1
    | PARSE_STATE.HEADERS =>
      match getLine b with
      | none => (r, b, false)
      | some (line, b1) =>
        if line = [] then
          if r.method = strL "POST" ∧ contentLength r > 0 then
            parseLoop verify fuel { r with state := PARSE_STATE.BODY } b1
          else
            ({ r with state := PARSE_STATE.FINISH }, b1, true)
        else
          match splitColon line with
          | some (k, v) => parseLoop verify fuel { r with header := r.header ++ [(k, v)] } b1
          | none => parseLoop verify fuel r b1
    | PARSE_STATE.BODY =>
      if b.ReadableBytes ≥ contentLength r then
        let r1 := ParsePost_ verify
          { r with body := b.readable.take (contentLength r), state := PARSE_STATE.FINISH }
        (r1, b.Retrieve (contentLength r), true)
      else (r, b, false)

/-- Modelled from the spec: `HttpRequest::parse(buff)`; a call with nothing
readable reports that more bytes are needed; otherwise the state machine runs
as far as the buffered bytes allow, and the result is true exactly when it
reached `FINISH`. -/
def parse (verify : List Char → List Char → Bool → Bool) (r : Req) (b : Buffer) :
    Req × Buffer × Bool :=
  if b.ReadableBytes = 0 then (r, b, false)
  else parseLoop verify (b.ReadableBytes + 2) r b

end HttpRequest

namespace HttpResponse

/-- The result of `stat`: directory bit, world-readable bit (`S_IROTH`) and size
(`st_size`). -/
structure FileInfo where
  isDir : Bool
  otherRead : Bool
  size : Nat
  deriving DecidableEq

/-- The zero-initialized `struct stat` set up by the constructor and `Init`. -/
def FileInfo.zero : FileInfo := ⟨false, false, 0⟩

/-- The abstract filesystem seen through `stat`: `none` means the call fails. -/
def FS : Type := List Char → Option FileInfo

/-- A `stat(path, &buf)` call: on success it returns 0 and fills `buf`; on
failure it returns -1 and leaves `buf` as it was.  The pair is (succeeded,
resulting buf). -/
def statCall (fs : FS) (p : List Char) (buf : FileInfo) : Bool × FileInfo :=
  match fs p with
  | some info => (true, info)
  | none => (false, buf)

/-- The fields of `HttpResponse` (httpresponse.h): status code, keep-alive flag,
path, source directory, the mapped-file pointer (an abstract address) and the
`stat` buffer. -/
structure RState where
  code : Int
  isKeepAlive : Bool
  path : List Char
  srcDir : List Char
  mmFile : Option Nat
  mmFileStat : FileInfo
  deriving DecidableEq

/-- The method `HttpResponse::Init(srcDir, path, isKeepAlive, code)`: asserts
the source directory is non-empty (`none` on failure), releases any mapping,
and resets every field. -/
def Init (srcDir path : List Char) (isKeepAlive : Bool) (code : Int) : Option RState :=
  if srcDir = [] then none
  else some { code := code, isKeepAlive := isKeepAlive, path := path, srcDir := srcDir,
              mmFile := none, mmFileStat := FileInfo.zero }

/-- The map `HttpResponse::CODE_PATH`. -/
def CODE_PATH (c : Int) : Option (List Char) :=
  if c = 400 then some (strL "/400.html")
  else if c = 403 then some (strL "/403.html")
  else if c = 404 then some (strL "/404.html")
  else none

/-- The map `HttpResponse::CODE_STATUS`. -/
def CODE_STATUS (c : Int) : Option (List Char) :=
  if c = 200 then some (strL "OK")
  else if c = 400 then some (strL "Bad Request")
  else if c = 403 then some (strL "Forbidden")
  else if c = 404 then some (strL "Not Found")
  else none

/-- The status-deciding head of `HttpResponse::MakeResponse`: stat the resolved
file `srcDir_ + path_` into `mmFileStat_`; a failed stat or a directory gives
404, a file without the world-readable bit gives 403, an unset code (-1)
becomes 200, and any other preset code is kept. -/
def makeResponseCode (fs : FS) (r : RState) : RState :=
  let st := statCall fs (r.srcDir ++ r.path) r.mmFileStat
  if st.1 = false ∨ st.2.isDir then { r with code := 404, mmFileStat := st.2 }
  else if st.2.otherRead = false then { r with code := 403, mmFileStat := st.2 }
  else if r.code = -1 then { r with code := 200, mmFileStat := st.2 }
  else { r with mmFileStat := st.2 }

/-- The method `HttpResponse::ErrorHtml_`: when the code has an entry in
`CODE_PATH`, rewrite the path to that error page and stat it into
`mmFileStat_`. -/
def ErrorHtml_ (fs : FS) (r : RState) : RState :=
  match CODE_PATH r.code with
  | some p => { r with path := p, mmFileStat := (statCall fs (r.srcDir ++ p) r.mmFileStat).2 }
  | none => r

/-- Decimal digits of a natural number (the `std::to_string` calls). -/
def natStr (n : Nat) : List Char := Nat.toDigits 10 n

/-- Decimal rendering of the (possibly negative) status code. -/
def intStr (i : Int) : List Char :=
  if i < 0 then '-' :: natStr (-i).toNat else natStr i.toNat

/-- The method `HttpResponse::AddStateLine_`: an unknown code is first replaced
by 400; the status line is appended. -/
def AddStateLine_ (r : RState) (b : Buffer) : RState × Buffer :=
  match CODE_STATUS r.code with
  | some status =>
    (r, b.Append (strL "HTTP/1.1 " ++ intStr r.code ++ strL " " ++ status ++ strL "\r\n"))
  | none =>
    let r1 := { r with code := 400 }
    (r1, b.Append (strL "HTTP/1.1 400 Bad Request\r\n"))

/-- The map `HttpResponse::SUFFIX_TYPE`. -/
def SUFFIX_TYPE : List (List Char × List Char) :=
  [(strL ".html", strL "text/html"),
   (strL ".xml", strL "text/xml"),
   (strL ".xhtml", strL "application/xhtml+xml"),
   (strL ".txt", strL "text/plain"),
   (strL ".rtf", strL "application/rtf"),
   (strL ".pdf", strL "application/pdf"),
   (strL ".word", strL "application/nsword"),
   (strL ".png", strL "image/png"),
   (strL ".gif", strL "image/gif"),
   (strL ".jpg", strL "image/jpeg"),
   (strL ".jpeg", strL "image/jpeg"),
   (strL ".au", strL "audio/basic"),
   (strL ".mpeg", strL "video/mpeg"),
   (strL ".mpg", strL "video/mpeg"),
   (strL ".avi", strL "video/x-msvideo"),
   (strL ".gz", strL "application/x-gzip"),
   (strL ".tar", strL "application/x-tar"),
   (strL ".css", strL "text/css "),
   (strL ".js", strL "text/javascript ")]

/-- The tail of the path from its last dot onward, or `none` when the path has
no dot (`path_.find_last_of` in `GetFileType_`). -/
def lastDotSuffix : List Char → Option (List Char)
  | [] => none
  | c :: rest =>
    match lastDotSuffix rest with
    | some s => some s
    | none => if c = '.' then some (c :: rest) else none

/-- The method `HttpResponse::GetFileType_`: look the suffix up in
`SUFFIX_TYPE`, defaulting to text/plain. -/
def GetFileType_ (r : RState) : List Char :=
  match lastDotSuffix r.path with
  | none => strL "text/plain"
  | some suffix =>
    match SUFFIX_TYPE.find? (fun p => p.1 = suffix) with
    | some p => p.2
    | none => strL "text/plain"

/-- The method `HttpResponse::AddHeader_`: the Connection header (with
keep-alive parameters when alive) and the Content-type header. -/
def AddHeader_ (r : RState) (b : Buffer) : Buffer :=
  let b1 := b.Append (strL "Connection: ")
  let b2 :=
    if r.isKeepAlive then
      (b1.Append (strL "keep-alive\r\n")).Append (strL "keep-alive: max=6, timeout=120\r\n")
    else b1.Append (strL "close\r\n")
  b2.Append (strL "Content-type: " ++ GetFileType_ r ++ strL "\r\n")

/-- The method `HttpResponse::ErrorContent(buff, message)`: the inline HTML error
body with its own Content-length header. -/
def ErrorContent (r : RState) (b : Buffer) (message : List Char) : Buffer :=
  let status :=
    match CODE_STATUS r.code with
    | some s => s
    | none => strL "Bad Request"
  let body :=
    strL "<html><title>Error</title>" ++ strL "<body bgcolor=\"ffffff\">" ++
    intStr r.code ++ strL " : " ++ status ++ strL "\n" ++
    strL "<p>" ++ message ++ strL "</p>" ++
    strL "<hr><em>TinyWebServer</em></body></html>"
  (b.Append (strL "Content-length: " ++ natStr body.length ++ strL "\r\n\r\n")).Append body

/-- The result of the `mmap` call in `AddContent_`: `failed` is `MAP_FAILED`
(for instance a zero-length file, for which `mmap` fails with `EINVAL`); on
success the mapping lives at `addr` and the first machine word of the mapped
file contents is `firstWord`. -/
inductive MmapResult where
  | failed
  | mapped (addr : Nat) (firstWord : Int)
  deriving DecidableEq

/-- The system calls `AddContent_` makes, keyed by the absolute path: the
`stat` view, the result of `open(path, O_RDONLY)` and the result of mapping
the opened file. -/
structure Sys where
  stat : FS
  openRO : List Char → Option Nat
  mm : List Char → MmapResult

/-- The method `HttpResponse::AddContent_`.  A failed `open` appends the inline
error body.  The mmap failure check is `*mmRet == -1`: it dereferences the
returned pointer, so when `mmap` fails the program reads through
`MAP_FAILED == (void*)-1`, which is undefined behavior, modelled as `none`;
when `mmap` succeeds the check instead reads the first word of the mapped file
and takes the error branch when that word happens to be -1.  On the success
path the mapping is stored and the Content-length header (from the stat size)
is appended. -/
def AddContent_ (sys : Sys) (r : RState) (b : Buffer) : Option (RState × Buffer) :=
  match sys.openRO (r.srcDir ++ r.path) with
  | none => some (r, ErrorContent r b (strL "File NotFound!"))
  | some _srcFd =>
    match sys.mm (r.srcDir ++ r.path) with
    | MmapResult.failed => none
    | MmapResult.mapped addr w =>
      if w = -1 then some (r, ErrorContent r b (strL "File NotFound!"))
      else
        some ({ r with mmFile := some addr },
          b.Append (strL "Content-length: " ++ natStr r.mmFileStat.size ++ strL "\r\n\r\n"))

/-- The method `HttpResponse::FileLen`. -/
def FileLen (r : RState) : Nat := r.mmFileStat.size

/-- The method `HttpResponse::MakeResponse(buff)`: decide the status code,
rewrite to the error page if applicable, then append status line, headers and
content. -/
def MakeResponse (sys : Sys) (r : RState) (b : Buffer) : Option (RState × Buffer) :=
  let r1 := makeResponseCode sys.stat r
  let r2 := ErrorHtml_ sys.stat r1
  let sl := AddStateLine_ r2 b
  let b2 := AddHeader_ sl.1 sl.2
  AddContent_ sys sl.1 b2

end HttpResponse

namespace HttpConn

/-- The fields of `HttpConn` driven by `process` and `write`: the two buffers,
the parser, the response state, and the scatter-gather vector (`iov_[0]` and
`iov_[1]` bases are abstract addresses: an offset into the write-buffer
storage for the former, into the mapped file for the latter). -/
structure PState where
  readBuff : Buffer
  writeBuff : Buffer
  request : HttpRequest.Req
  response : HttpResponse.RState
  iov0base : Nat
  iov0len : Nat
  iov1base : Nat
  iov1len : Nat
  iovCnt : Nat
  deriving DecidableEq

/-- The method `HttpConn::ToWriteBytes`: the pending byte count
`iov_[0].iov_len + iov_[1].iov_len` (returned as `int` in the source; the
operands are sizes of in-memory regions, far below `2^31`). -/
def ToWriteBytes (c : PState) : Nat := c.iov0len + c.iov1len

/-- One iteration of the do-while body of `HttpConn::write` after `writev`
reported `len` bytes written, for the case `len > 0` (the error break is not
taken).  A write past the header region advances the file iovec and, if the
header region was non-empty, drops it and clears the whole write buffer;
otherwise the header iovec advances and the same count is retrieved from the
write buffer.  `size_t` subtraction is wrapping. -/
def writeStep (c : PState) (len : Nat) : PState :=
  if c.iov0len + c.iov1len = 0 then c
  else if len > c.iov0len then
    let d := len - c.iov0len
    let c1 := { c with iov1base := c.iov1base + d, iov1len := sizeTSub c.iov1len d }
    if c1.iov0len ≠ 0 then
      { c1 with writeBuff := c1.writeBuff.RetrieveAll, iov0len := 0 }
    else c1
  else
    { c with iov0base := c.iov0base + len, iov0len := sizeTSub c.iov0len len,
             writeBuff := c.writeBuff.Retrieve len }

/-- The method `HttpConn::process`: initialize the parser, report false when
nothing is readable, else parse, build the response (200 on a complete parse,
400 otherwise) into the write buffer, and point `iov_[0]` at the buffered
headers and `iov_[1]` at the mapped file when one exists. -/
def process (sys : HttpResponse.Sys) (verify : List Char → List Char → Bool → Bool)
    (srcDir : List Char) (c : PState) : Option (PState × Bool) :=
  let req0 := HttpRequest.Init
  if c.readBuff.ReadableBytes = 0 then some ({ c with request := req0 }, false)
  else
    let pr := HttpRequest.parse verify req0 c.readBuff
    let initd :=
      if pr.2.2 then HttpResponse.Init srcDir pr.1.path (HttpRequest.IsKeepAlive pr.1) 200
      else HttpResponse.Init srcDir pr.1.path false 400
    match initd with
    | none => none
    | some resp1 =>
      match HttpResponse.MakeResponse sys resp1 c.writeBuff with
      | none => none
      | some (resp2, wb1) =>
        let c1 : PState :=
          { c with readBuff := pr.2.1, writeBuff := wb1, request := pr.1, response := resp2,
                   iov0base := wb1.Peek, iov0len := wb1.ReadableBytes, iovCnt := 1 }
        if 0 < HttpResponse.FileLen resp2 ∧ resp2.mmFile ≠ none then
          some ({ c1 with iov1base := (resp2.mmFile.getD 0),
                          iov1len := HttpResponse.FileLen resp2, iovCnt := 2 }, true)
        else some (c1, true)

/-- The state `HttpConn::Close` acts on: the connection close flag, the shared
`userCount`, and the mapped file released by `response_.UnmapFile()`. -/
structure CloseState where
  isClose : Bool
  userCount : Int
  mmFile : Option Nat
  deriving DecidableEq

/-- The method `HttpConn::Close`: always release the mapping; when the
connection is still open, mark it closed and decrement the user count. -/
def Close (s : CloseState) : CloseState :=
  let s1 : CloseState := { s with mmFile := none }
  if s1.isClose = false then { s1 with isClose := true, userCount := s1.userCount - 1 }
  else s1

end HttpConn

namespace WebServer

/-- The per-entry slice of `HttpConn` visible to the user table: the stored
descriptor and the close flag. -/
structure Conn where
  fd : Int
  isClose : Bool
  deriving DecidableEq

/-- Lookup in the map `users_`. -/
def usersFind (m : List (Int × Conn)) (fd : Int) : Option Conn :=
  match m with
  | [] => none
  | (k, c) :: rest => if k = fd then some c else usersFind rest fd

/-- Assignment `users_[fd] = c`: update in place, or insert when absent. -/
def usersSet (m : List (Int × Conn)) (fd : Int) (c : Conn) : List (Int × Conn) :=
  match m with
  | [] => [(fd, c)]
  | (k, w) :: rest => if k = fd then (k, c) :: rest else (k, w) :: usersSet rest fd c

/-- The reactor state the user-table operations act on: the map `users_` and
the shared `HttpConn::userCount`. -/
structure SState where
  users : List (Int × Conn)
  userCount : Int
  deriving DecidableEq

/-- The method `WebServer::AddClient_(fd, addr)`: asserts `fd > 0`, then
`users_[fd].init(fd, addr)` inserts (or overwrites) the entry, leaving it open;
`HttpConn::init` increments `userCount`.  The timer, epoll and logging effects
have no bearing on the table. -/
def AddClient_ (s : SState) (fd : Int) : Option SState :=
  if fd > 0 then
    some { users := usersSet s.users fd ⟨fd, false⟩, userCount := s.userCount + 1 }
  else none

/-- The method `WebServer::CloseConn_(&users_[fd])` as reached from the event
loop, which first asserts `users_.count(fd) > 0` (`none` when it does not
hold).  `HttpConn::Close` marks a still-open connection closed and decrements
`userCount`; no path erases the entry from `users_`. -/
def CloseConn_ (s : SState) (fd : Int) : Option SState :=
  match usersFind s.users fd with
  | none => none
  | some c =>
    if c.isClose = false then
      some { users := usersSet s.users fd { c with isClose := true },
             userCount := s.userCount - 1 }
    else some s

/-- A user-table operation of the reactor. -/
inductive Op where
  | addClient (fd : Int)
  | closeConn (fd : Int)
  deriving DecidableEq

/-- Run a sequence of user-table operations. -/
def run : List Op → SState → Option SState
  | [], s => some s
  | Op.addClient fd :: ops, s =>
    match AddClient_ s fd with
    | some s1 => run ops s1
    | none => none
  | Op.closeConn fd :: ops, s =>
    match CloseConn_ s fd with
    | some s1 => run ops s1
    | none => none

end WebServer

/-!
Concrete fixtures: a small filesystem with a resource directory `R` holding
`index.html` and the static error pages, the always-failing user verifier, and
connection states used to evaluate the embeddings on concrete inputs.
-/

/-- A filesystem for concrete runs: `R` is the resource directory (a readable
directory), `R/index.html` a regular world-readable file of 10 bytes, and the
400/404 error pages exist; every mappable file has a first word distinct
from -1. -/
def fixSys : HttpResponse.Sys where
  stat p :=
    if p = strL "R/index.html" then some ⟨false, true, 10⟩
    else if p = strL "R" then some ⟨true, true, 4096⟩
    else if p = strL "R/404.html" then some ⟨false, true, 20⟩
    else if p = strL "R/400.html" then some ⟨false, true, 15⟩
    else none
  openRO p :=
    if p = strL "R/index.html" then some 3
    else if p = strL "R/404.html" then some 4
    else if p = strL "R/400.html" then some 5
    else none
  mm p :=
    if p = strL "R/index.html" then HttpResponse.MmapResult.mapped 100 7
    else if p = strL "R/404.html" then HttpResponse.MmapResult.mapped 200 7
    else if p = strL "R/400.html" then HttpResponse.MmapResult.mapped 300 7
    else HttpResponse.MmapResult.failed

/-- A user verifier that rejects every credential (no database row matches). -/
def fixVerify : List Char → List Char → Bool → Bool := fun _ _ _ => false

/-- A freshly initialized connection whose read buffer holds `rb`. -/
def fixConn (rb : List Char) : HttpConn.PState :=
  { readBuff := ⟨rb, 0⟩, writeBuff := ⟨[], 0⟩, request := HttpRequest.Init,
    response := ⟨-1, false, [], strL "R", none, HttpResponse.FileInfo.zero⟩,
    iov0base := 0, iov0len := 0, iov1base := 0, iov1len := 0, iovCnt := 0 }

/-- The complete request used in the delivery experiments. -/
def fixRequestWhole : List Char := strL "GET / HTTP/1.1\r\nHost: a\r\n\r\n"

/-- The first chunk of the same request (ends inside the header section). -/
def fixRequestChunk1 : List Char := strL "GET / HTTP/1.1\r\n"

/-- The remaining bytes of the same request. -/
def fixRequestChunk2 : List Char := strL "Host: a\r\n\r\n"

/-- Processing the complete request delivered in one read. -/
def fixProcessWhole : Option (HttpConn.PState × Bool) :=
  HttpConn.process fixSys fixVerify (strL "R") (fixConn fixRequestWhole)

/-- Processing the first chunk alone. -/
def fixProcessChunk1 : Option (HttpConn.PState × Bool) :=
  HttpConn.process fixSys fixVerify (strL "R") (fixConn fixRequestChunk1)

/-- The later `process` call of the split delivery: the connection as the first
call left it, its read buffer extended with the remaining bytes. -/
def fixProcessSplit : Option (HttpConn.PState × Bool) :=
  match fixProcessChunk1 with
  | some p =>
    HttpConn.process fixSys fixVerify (strL "R")
      { p.1 with readBuff := p.1.readBuff.Append fixRequestChunk2 }
  | none => none

/-- A connection mid-write: three header bytes pending at offset 2 of the write
buffer and four file bytes. -/
def fixWriteConn : HttpConn.PState :=
  { readBuff := ⟨[], 0⟩, writeBuff := ⟨strL "ABCDE", 2⟩, request := HttpRequest.Init,
    response := ⟨-1, false, [], strL "R", none, HttpResponse.FileInfo.zero⟩,
    iov0base := 2, iov0len := 3, iov1base := 0, iov1len := 4, iovCnt := 2 }

/-- A response about to serve the 404 page, whose stat buffer records a
zero-length file. -/
def fixResp404 : HttpResponse.RState :=
  ⟨404, false, strL "/404.html", strL "R", none, ⟨false, true, 0⟩⟩

/-- System calls for a zero-length target: `open` succeeds, `mmap` of the
zero-length file returns `MAP_FAILED` (EINVAL). -/
def fixSysMmapFail : HttpResponse.Sys :=
  { stat := fixSys.stat, openRO := fun _ => some 9, mm := fun _ => HttpResponse.MmapResult.failed }

/-- System calls for a vanished target: `open` fails. -/
def fixSysOpenFail : HttpResponse.Sys :=
  { stat := fixSys.stat, openRO := fun _ => none, mm := fun _ => HttpResponse.MmapResult.failed }

/-- A filesystem on which every `stat` fails. -/
def fixFSnone : HttpResponse.FS := fun _ => none

/-- A freshly initialized response (unset code) for a missing target. -/
def fixRespFresh : HttpResponse.RState :=
  ⟨-1, false, strL "/x", strL "R", none, HttpResponse.FileInfo.zero⟩


/-!
Helper lemmas shared by the theorems below.
-/

theorem sizeTSub_eq_sub (a b : Nat) (hb : b ≤ a) (ha : a < sizeTMod) :
    sizeTSub a b = a - b := by
  unfold sizeTSub sizeTMod at *
  omega

theorem usersFind_usersSet (m : List (Int × WebServer.Conn)) (k : Int) (v : WebServer.Conn)
    (j : Int) :
    WebServer.usersFind (WebServer.usersSet m k v) j =
      if k = j then some v else WebServer.usersFind m j := by
  induction m with
  | nil => by_cases h : k = j <;> simp [WebServer.usersSet, WebServer.usersFind, h]
  | cons hd tl ih =>
    obtain ⟨a, w⟩ := hd
    by_cases hak : a = k
    · subst hak
      by_cases haj : a = j <;> simp [WebServer.usersSet, WebServer.usersFind, haj]
    · by_cases haj : a = j
      · have hkj : ¬ k = j := fun hh => hak (haj.trans hh.symm)
        have hjk : ¬ j = k := fun hh => hkj hh.symm
        simp [WebServer.usersSet, WebServer.usersFind, hak, haj, hjk, hkj]
      · simp [WebServer.usersSet, WebServer.usersFind, hak, haj, ih]

theorem run_present_iff (ops : List WebServer.Op) (fd : Int) :
    ∀ (s0 s : WebServer.SState), WebServer.run ops s0 = some s →
      (WebServer.usersFind s.users fd ≠ none ↔
        (WebServer.usersFind s0.users fd ≠ none ∨ WebServer.Op.addClient fd ∈ ops)) := by
  induction ops with
  | nil =>
    intro s0 s h
    injection h with h
    subst h
    simp
  | cons op rest ih =>
    intro s0 s h
    cases op with
    | addClient f =>
      rcases hA : WebServer.AddClient_ s0 f with _ | s1
      · simp [WebServer.run, hA] at h
      · simp only [WebServer.run, hA] at h
        unfold WebServer.AddClient_ at hA
        split at hA
        case isTrue hf =>
          injection hA with hA
          subst hA
          rw [ih _ s h]
          simp only [usersFind_usersSet, List.mem_cons]
          by_cases hfd : f = fd
          · simp [hfd]
          · simp [hfd, show ¬ fd = f from fun hh => hfd hh.symm]
        case isFalse hf => cases hA
    | closeConn f =>
      rcases hC : WebServer.CloseConn_ s0 f with _ | s1
      · simp [WebServer.run, hC] at h
      · simp only [WebServer.run, hC] at h
        unfold WebServer.CloseConn_ at hC
        rcases hF : WebServer.usersFind s0.users f with _ | cconn
        · simp [hF] at hC
        · rw [hF] at hC
          simp only [] at hC
          split at hC
          case isTrue hop =>
            injection hC with hC
            subst hC
            rw [ih _ s h]
            simp only [usersFind_usersSet, List.mem_cons]
            by_cases hfd : f = fd
            · simp [hfd]
              exact Or.inl (by rw [← hfd, hF]; exact fun hcon => Option.noConfusion hcon)
            · simp [hfd]
          case isFalse hop =>
            injection hC with hC
            subst hC
            rw [ih _ s h]
            simp

/-!
Claim theorems.
-/

/-- C1 counterexample: the request `GET / HTTP/1.1  Host: a` delivered in one
read is answered 200 with the request parsed to FINISH, but when the same bytes
arrive in two reads, the second `process` call on the read buffer extended with
the remaining bytes answers 404 and its parser never leaves REQUEST_LINE:
`HttpConn::process` re-initializes the parser, so the split delivery does not
reach Finish with the same parsed request. -/
theorem process_split_delivery_diverges :
    fixProcessWhole.map (fun p => p.1.response.code) = some 200 ∧
    fixProcessWhole.map (fun p => p.1.request.state) = some HttpRequest.PARSE_STATE.FINISH ∧
    fixProcessSplit.map (fun p => p.1.response.code) = some 404 ∧
    fixProcessSplit.map (fun p => p.1.request.state) =
      some HttpRequest.PARSE_STATE.REQUEST_LINE := by
  refine ⟨?_, ?_, ?_, ?_⟩ <;> decide

/-- C1 (amended): intermediate parser state does not persist on the connection:
`HttpConn::process` calls `request_.Init()` before invoking `parse`, so the
result of `process` is entirely independent of the parser state left by any
earlier call. -/
theorem process_resets_request_state (sys : HttpResponse.Sys)
    (verify : List Char → List Char → Bool → Bool) (srcDir : List Char)
    (c : HttpConn.PState) (r1 : HttpRequest.Req) :
    HttpConn.process sys verify srcDir { c with request := r1 } =
      HttpConn.process sys verify srcDir c := rfl

/-- C2: after `Close()` (which empties the deque, sets the flag and notifies
all waiters), the timed `pop` returns false, but the untimed `pop` does not
return at all: its wait loop never consults `isClose_`, so a woken consumer
re-enters `wait` and blocks forever instead of returning false. -/
theorem pop_on_closed_queue_blocks :
    BlockQueue.pop
        (BlockQueue.Close
          ({ deq := [1, 2], isClose := false, capacity := 1000 } : BlockQueue.State Nat)) =
      BlockQueue.PopOutcome.blocked ∧
    BlockQueue.popTimed
        (BlockQueue.Close
          ({ deq := [1, 2], isClose := false, capacity := 1000 } : BlockQueue.State Nat)) 1 =
      BlockQueue.PopOutcome.ret false none { deq := [], isClose := true, capacity := 1000 } :=
  ⟨rfl, rfl⟩

/-- C3: `GetNextTick` can return a negative number different from the sentinel:
with one timer 1.5 ms from the tick-time clock reading and the second clock
reading 4 ms later, it returns -2, because `res` is a `size_t`, so the negative
count wraps and the clamp `if (res < 0) res = 0` is dead code.  Moreover, when
the root is expired and a second node exists, `tick` itself commits an
out-of-bounds read (through `del_` and `siftup_(0)`), so no value is returned
at all.  The empty heap does return the -1 sentinel. -/
theorem getNextTick_negative_result :
    HeapTimer.getNextTick { heap := [⟨1, 1500000, 0⟩], ref := [(1, 0)] } 0 4000000 =
      some ({ heap := [⟨1, 1500000, 0⟩], ref := [(1, 0)] }, -2) ∧
    HeapTimer.getNextTick
        { heap := [⟨1, -1000000, 7⟩, ⟨2, 5000000, 8⟩], ref := [(1, 0), (2, 1)] } 0 0 = none ∧
    HeapTimer.getNextTick ({ heap := [], ref := [] } : HeapTimer.State) 0 0 =
      some ({ heap := [], ref := [] }, -1) := by
  refine ⟨?_, ?_, ?_⟩ <;> decide

/-- C4: the very first `add` on an empty timer (the first accepted connection
of any run) already has no defined result: the inserted node is sifted up from
index 0, where `parent = (0 - 1) / 2` wraps to `2^63 - 1` and `heap_[parent]`
is read out of bounds, so no post-state satisfying the heap invariant is
produced. -/
theorem add_on_empty_heap_undefined :
    HeapTimer.add { heap := [], ref := [] } 1 1000 0 0 = none := by decide

/-- C10: in `siftup_` the parent index of position 0 is computed in `size_t`
arithmetic as `(0 - 1) / 2 = 2^63 - 1`, and the reachable call `siftup_(0)`
made by `add` on a singleton heap reads `heap_[2^63 - 1]`: the out-of-bounds
branch of the total embedding is reached. -/
theorem siftup_root_reads_out_of_bounds :
    HeapTimer.parentIdx 0 = 9223372036854775807 ∧
    HeapTimer.siftup { heap := [⟨1, 5, 0⟩], ref := [(1, 0)] } 0 = none := by
  refine ⟨?_, ?_⟩ <;> decide

/-- C5: when `open` fails, `AddContent_` appends the inline HTML error body
(with its own Content-length) and sets no file payload; but when `open`
succeeds and `mmap` fails (as for a zero-length file), the failure check
`*mmRet == -1` dereferences `MAP_FAILED` itself, so the failing-mmap branch is
not reached safely: the embedding yields no result (undefined behavior)
instead of the inline error body. -/
theorem addContent_mmap_failure_unsafe :
    HttpResponse.AddContent_ fixSysMmapFail fixResp404 { data := [], readPos := 0 } = none ∧
    HttpResponse.AddContent_ fixSysOpenFail fixResp404 { data := [], readPos := 0 } =
      some (fixResp404,
        HttpResponse.ErrorContent fixResp404 { data := [], readPos := 0 }
          (strL "File NotFound!")) ∧
    fixResp404.mmFile = none :=
  ⟨rfl, rfl, rfl⟩

/-- C6 counterexample: adding client 5 and then closing it leaves the key 5 in
`users_`, mapped to a connection whose close flag is set: the entry is not
removed on close, so present does not imply open. -/
theorem users_entry_survives_close :
    WebServer.run [WebServer.Op.addClient 5, WebServer.Op.closeConn 5]
        { users := [], userCount := 0 } =
      some { users := [(5, { fd := 5, isClose := true })], userCount := 0 } ∧
    (WebServer.usersFind [(5, { fd := 5, isClose := true })] 5).map WebServer.Conn.isClose =
      some true := by
  refine ⟨?_, ?_⟩ <;> decide

/-- C6 (amended): after every sequence of `AddClient_` and `CloseConn_`
operations from the empty table, a key is present in `users_` exactly when an
`AddClient_` for that descriptor occurred; `CloseConn_` marks the connection
closed and decrements the user count but never erases the entry. -/
theorem users_key_iff_added (ops : List WebServer.Op) (s : WebServer.SState)
    (h : WebServer.run ops { users := [], userCount := 0 } = some s) (fd : Int) :
    WebServer.usersFind s.users fd ≠ none ↔ WebServer.Op.addClient fd ∈ ops := by
  have hh := run_present_iff ops fd { users := [], userCount := 0 } s h
  simpa [WebServer.usersFind] using hh

/-- Witness for users_key_iff_added at the concrete two-operation run. -/
theorem users_key_iff_added_witness :
    WebServer.usersFind [(5, { fd := 5, isClose := true })] 5 ≠ none ↔
      WebServer.Op.addClient 5 ∈ [WebServer.Op.addClient 5, WebServer.Op.closeConn 5] :=
  users_key_iff_added [WebServer.Op.addClient 5, WebServer.Op.closeConn 5]
    { users := [(5, { fd := 5, isClose := true })], userCount := 0 } (by decide) 5

/-- C9: `HttpConn::Close` is idempotent on the close flag and the shared user
count: the first close of an open connection decrements the count and sets the
flag, and a second close changes nothing (a close of an already-closed
connection keeps the count). -/
theorem Close_idempotent (s : HttpConn.CloseState) :
    HttpConn.Close (HttpConn.Close s) = HttpConn.Close s ∧
    (HttpConn.Close s).isClose = true ∧
    (s.isClose = false → (HttpConn.Close s).userCount = s.userCount - 1) ∧
    (s.isClose = true → (HttpConn.Close s).userCount = s.userCount) := by
  obtain ⟨b, u, m⟩ := s
  cases b <;> simp [HttpConn.Close]

/-- Witness for Close_idempotent on an open connection with five users. -/
theorem Close_idempotent_witness :
    HttpConn.Close (HttpConn.Close ⟨false, 5, some 2⟩) = HttpConn.Close ⟨false, 5, some 2⟩ ∧
    (HttpConn.Close ⟨false, 5, some 2⟩).userCount = (5 : Int) - 1 :=
  ⟨(Close_idempotent ⟨false, 5, some 2⟩).1, (Close_idempotent ⟨false, 5, some 2⟩).2.2.1 rfl⟩

/-- C7: `MakeResponse` decides the status exactly as specified: a failed stat
of `srcDir + path` or a directory gives 404; a file without the
world-readable bit gives 403; an unset code (-1) becomes 200 and a preset code
is kept.  `CODE_PATH` covers exactly 400, 403 and 404, and for those codes the
path is rewritten to the static error page and that page is re-stat(ed); other
codes leave the path alone.  The rewrite and re-stat happen before the status
line, headers and content are appended. -/
theorem makeResponse_status_decision (fs : HttpResponse.FS) (r : HttpResponse.RState) :
    (HttpResponse.makeResponseCode fs r).code =
      (match fs (r.srcDir ++ r.path) with
       | none => 404
       | some st =>
         if st.isDir then 404
         else if st.otherRead = false then 403
         else if r.code = -1 then 200 else r.code) ∧
    (∀ c : Int, (HttpResponse.CODE_PATH c).isSome ↔ (c = 400 ∨ c = 403 ∨ c = 404)) ∧
    (∀ p, HttpResponse.CODE_PATH (HttpResponse.makeResponseCode fs r).code = some p →
      (HttpResponse.ErrorHtml_ fs (HttpResponse.makeResponseCode fs r)).path = p ∧
      (HttpResponse.ErrorHtml_ fs (HttpResponse.makeResponseCode fs r)).mmFileStat =
        (HttpResponse.statCall fs (r.srcDir ++ p)
          (HttpResponse.makeResponseCode fs r).mmFileStat).2) ∧
    (HttpResponse.CODE_PATH (HttpResponse.makeResponseCode fs r).code = none →
      (HttpResponse.ErrorHtml_ fs (HttpResponse.makeResponseCode fs r)).path = r.path) ∧
    (∀ (sys : HttpResponse.Sys) (b : Buffer),
      HttpResponse.MakeResponse sys r b =
        HttpResponse.AddContent_ sys
          (HttpResponse.AddStateLine_
            (HttpResponse.ErrorHtml_ sys.stat (HttpResponse.makeResponseCode sys.stat r)) b).1
          (HttpResponse.AddHeader_
            (HttpResponse.AddStateLine_
              (HttpResponse.ErrorHtml_ sys.stat (HttpResponse.makeResponseCode sys.stat r)) b).1
            (HttpResponse.AddStateLine_
              (HttpResponse.ErrorHtml_ sys.stat
                (HttpResponse.makeResponseCode sys.stat r)) b).2)) := by
  refine ⟨?_, ?_, ?_, ?_, ?_⟩
  · rcases hfs : fs (r.srcDir ++ r.path) with _ | st
    · simp [HttpResponse.makeResponseCode, HttpResponse.statCall, hfs]
    · simp only [HttpResponse.makeResponseCode, HttpResponse.statCall, hfs]
      cases hd : st.isDir <;> cases ho : st.otherRead <;> by_cases hc : r.code = -1 <;>
        simp [hd, ho, hc]
  · intro c
    unfold HttpResponse.CODE_PATH
    split_ifs <;> simp_all
  · intro p hp
    have hsrc : (HttpResponse.makeResponseCode fs r).srcDir = r.srcDir := by
      simp only [HttpResponse.makeResponseCode]
      split_ifs <;> rfl
    refine ⟨?_, ?_⟩ <;> simp [HttpResponse.ErrorHtml_, hp, hsrc]
  · intro h0
    have hpath : (HttpResponse.makeResponseCode fs r).path = r.path := by
      simp only [HttpResponse.makeResponseCode]
      split_ifs <;> rfl
    simp [HttpResponse.ErrorHtml_, h0, hpath]
  · intro sys b
    rfl

/-- Witness for makeResponse_status_decision: on a filesystem where every stat
fails, a fresh response resolves to 404 and its path is rewritten to the 404
page. -/
theorem makeResponse_status_decision_witness :
    (HttpResponse.ErrorHtml_ fixFSnone
        (HttpResponse.makeResponseCode fixFSnone fixRespFresh)).path = strL "/404.html" ∧
    (HttpResponse.makeResponseCode fixFSnone fixRespFresh).code = 404 :=
  ⟨((makeResponse_status_decision fixFSnone fixRespFresh).2.2.1
      (strL "/404.html") (by decide)).1,
   by decide⟩

/-- C8: in one iteration of the write loop with `0 < len` bytes reported
written, `len` not exceeding the pending bytes, and `iov_[0]` describing the
write-buffer readable region, the accounting is exact: the pending count drops
by exactly `len`, the header region is consumed before the file region (the
file iovec shrinks only by what exceeds the header region), and afterwards
`iov_[0]` again describes the readable region of the write buffer. -/
theorem writeStep_accounting (c : HttpConn.PState) (len : Nat)
    (hlen0 : 0 < len) (hlen : len ≤ c.iov0len + c.iov1len)
    (h0 : c.iov0len < sizeTMod) (h1 : c.iov1len < sizeTMod)
    (hinv : c.iov0len = Buffer.ReadableBytes c.writeBuff)
    (hbase : 0 < c.iov0len → c.iov0base = Buffer.Peek c.writeBuff) :
    HttpConn.ToWriteBytes (HttpConn.writeStep c len) = HttpConn.ToWriteBytes c - len ∧
    (HttpConn.writeStep c len).iov0len = c.iov0len - min len c.iov0len ∧
    (HttpConn.writeStep c len).iov1len = c.iov1len - (len - min len c.iov0len) ∧
    (HttpConn.writeStep c len).iov0len =
      Buffer.ReadableBytes (HttpConn.writeStep c len).writeBuff ∧
    (0 < (HttpConn.writeStep c len).iov0len →
      (HttpConn.writeStep c len).iov0base =
        Buffer.Peek (HttpConn.writeStep c len).writeBuff) := by
  obtain ⟨rb, wb, req, resp, i0b, i0l, i1b, i1l, cnt⟩ := c
  obtain ⟨wdata, wread⟩ := wb
  simp only [HttpConn.ToWriteBytes, Buffer.ReadableBytes, Buffer.Peek, sizeTMod]
    at hlen h0 h1 hinv hbase ⊢
  simp only [HttpConn.writeStep]
  split_ifs with hz hgt hne <;>
    simp only [HttpConn.ToWriteBytes, Buffer.ReadableBytes, Buffer.Peek, Buffer.RetrieveAll,
      Buffer.Retrieve, sizeTSub, sizeTMod, List.length_nil, Nat.min_def] <;>
    (repeat' apply And.intro) <;>
    first
    | trivial
    | omega
    | (split_ifs <;> omega)

/-- Witness for writeStep_accounting: the mid-write connection with three
header bytes and four file bytes pending, after a partial write of two
bytes. -/
theorem writeStep_accounting_witness :
    HttpConn.ToWriteBytes (HttpConn.writeStep fixWriteConn 2) =
      HttpConn.ToWriteBytes fixWriteConn - 2 ∧
    (HttpConn.writeStep fixWriteConn 2).iov0len =
      fixWriteConn.iov0len - min 2 fixWriteConn.iov0len ∧
    (HttpConn.writeStep fixWriteConn 2).iov1len =
      fixWriteConn.iov1len - (2 - min 2 fixWriteConn.iov0len) ∧
    (HttpConn.writeStep fixWriteConn 2).iov0len =
      Buffer.ReadableBytes (HttpConn.writeStep fixWriteConn 2).writeBuff ∧
    (0 < (HttpConn.writeStep fixWriteConn 2).iov0len →
      (HttpConn.writeStep fixWriteConn 2).iov0base =
        Buffer.Peek (HttpConn.writeStep fixWriteConn 2).writeBuff) :=
  writeStep_accounting fixWriteConn 2 (by decide) (by decide) (by decide) (by decide)
    (by decide) (by decide)
